import Mathlib

/-!
Verification of the per-guild music playback controller of MichaelBotPy
(`categories/music.py`), shallowly embedded in Lean.

Machine-level conventions of the embedding:
* A `Track` mirrors the `Track(wavelink.Track)` value: identifier, title,
  uri, duration in milliseconds, optional thumbnail, and requester identity.
* `asyncio.Queue` contents are modelled as a `List Track` (head = next item
  returned by `queue.get()`, `queue.put` appends at the tail).
* Python `int` command arguments are modelled as `Int` (they may be
  negative), and the code's `index -= 1` / range checks are kept verbatim.
* Fallible user-facing queue operations return the new queue contents
  together with a `QueueOpResult`.
-/

structure Track where
  id : String
  title : String
  uri : String
  duration : Nat
  thumb : Option String
  requester : String
deriving DecidableEq, Repr

/-- Outcome of an index-based queue operation: either the removed/moved
track, or the "Index out of range." reply path. -/
inductive QueueOpResult where
  | ok (removed : Track)
  | indexOutOfRange
deriving DecidableEq, Repr

/-- The drain loop shared by `Music.queue_remove` and `Music.queue_move`
(music.py lines 665-669 and 702-706):
`for i in range(0, max_size): if i == source: removed = queue.get()
else: fake_queue.put(queue.get())`, followed by pouring `fake_queue`
back into the live queue.  `drainGo source i q` returns the rebuilt
contents and the removed track, starting the loop counter at `i`. -/
def drainGo (source : Int) : Int → List Track → List Track × Option Track
  | _, [] => ([], none)
  | i, t :: rest =>
    let r := drainGo source (i + 1) rest
    if i = source then (r.1, some t) else (t :: r.1, r.2)

/-- `Music.queue_remove` (music.py lines 681-711): 1-based `index` is
decremented, validated against `[0, max_size - 1]`, and on success the
queue is drained and rebuilt without the selected element. -/
def queue_remove (index : Int) (q : List Track) : List Track × QueueOpResult :=
  if index - 1 < 0 ∨ index - 1 > (q.length : Int) - 1 then
    (q, QueueOpResult.indexOutOfRange)
  else
    match drainGo (index - 1) 0 q with
    | (fake, some t) => (fake, QueueOpResult.ok t)
    | (fake, none) => (fake, QueueOpResult.indexOutOfRange)

/-- `Music.queue_move` (music.py lines 644-676): both 1-based indices are
decremented and validated; on success the queue is drained and rebuilt
without the source element and the removed track is reinserted at the
destination position via `queue._queue.insert(destination_index, track)`. -/
def queue_move (source_index destination_index : Int) (q : List Track) :
    List Track × QueueOpResult :=
  if source_index - 1 < 0 ∨ source_index - 1 > (q.length : Int) - 1 ∨
      destination_index - 1 < 0 ∨ destination_index - 1 > (q.length : Int) - 1 then
    (q, QueueOpResult.indexOutOfRange)
  else
    match drainGo (source_index - 1) 0 q with
    | (fake, some t) =>
        (fake.insertIdx (destination_index - 1).toNat t, QueueOpResult.ok t)
    | (fake, none) => (fake, QueueOpResult.indexOutOfRange)

lemma drainGo_of_lt (source : Int) (q : List Track) :
    ∀ i : Int, source < i → drainGo source i q = (q, none) := by
  induction q with
  | nil => intro i _; rfl
  | cons t rest ih =>
      intro i hi
      have hne : ¬ i = source := by omega
      simp only [drainGo, ih (i + 1) (by omega), if_neg hne]

lemma drainGo_spec (source : Int) (q : List Track) :
    ∀ i : Int, i ≤ source →
      drainGo source i q =
        (q.eraseIdx (source - i).toNat, q[(source - i).toNat]?) := by
  induction q with
  | nil => intro i _; simp [drainGo]
  | cons t rest ih =>
      intro i hi
      by_cases hcase : i = source
      · subst hcase
        have h0 : (i - i).toNat = 0 := by omega
        simp [drainGo, drainGo_of_lt i rest (i + 1) (by omega), h0]
      · have hlt : i < source := lt_of_le_of_ne hi hcase
        have hsucc : (source - i).toNat = (source - (i + 1)).toNat + 1 := by omega
        simp only [drainGo, ih (i + 1) (by omega), if_neg hcase, hsucc,
          List.eraseIdx_cons_succ, List.getElem?_cons_succ]

/-- C5: for every queue and every valid 1-based index, `queue_remove`
removes exactly the element at that index (all other elements keeping
their order, as `List.eraseIdx`) and reports the removed track. -/
theorem queue_remove_valid (q : List Track) (t : Track) (index : Int)
    (h1 : 1 ≤ index) (hget : q[(index - 1).toNat]? = some t) :
    queue_remove index q =
      (q.eraseIdx (index - 1).toNat, QueueOpResult.ok t) := by
  have hlt : (index - 1).toNat < q.length := by
    rcases List.getElem?_eq_some_iff.mp hget with ⟨h, _⟩
    exact h
  have hcond : ¬ (index - 1 < 0 ∨ index - 1 > (q.length : Int) - 1) := by omega
  have hdrain := drainGo_spec (index - 1) q 0 (by omega)
  simp only [Int.sub_zero] at hdrain
  simp only [queue_remove, if_neg hcond, hdrain, hget]

/-- C3: for every queue and valid 1-based source and destination indices,
`queue_move` removes the track at the source index and reinserts it at
the destination index of the remaining shortened list (the composition
of `List.eraseIdx` with `List.insertIdx`), preserving the relative order
of all other tracks. -/
theorem queue_move_valid (q : List Track) (t : Track) (src dst : Int)
    (h1 : 1 ≤ src) (hget : q[(src - 1).toNat]? = some t)
    (h3 : 1 ≤ dst) (h4 : dst ≤ (q.length : Int)) :
    queue_move src dst q =
      ((q.eraseIdx (src - 1).toNat).insertIdx (dst - 1).toNat t,
        QueueOpResult.ok t) := by
  have hlt : (src - 1).toNat < q.length := by
    rcases List.getElem?_eq_some_iff.mp hget with ⟨h, _⟩
    exact h
  have hcond : ¬ (src - 1 < 0 ∨ src - 1 > (q.length : Int) - 1 ∨
      dst - 1 < 0 ∨ dst - 1 > (q.length : Int) - 1) := by omega
  have hdrain := drainGo_spec (src - 1) q 0 (by omega)
  simp only [Int.sub_zero] at hdrain
  simp only [queue_move, if_neg hcond, hdrain, hget]

/-- C4: for every queue and every 1-based index outside `[1, size]`, both
`queue_remove` and `queue_move` (whichever argument position carries the
invalid index) fail with the index-out-of-range outcome, leave the queue
exactly unchanged, and return no removed track. -/
theorem queue_index_out_of_range (q : List Track) (i j : Int)
    (h : i < 1 ∨ (q.length : Int) < i) :
    queue_remove i q = (q, QueueOpResult.indexOutOfRange) ∧
    queue_move i j q = (q, QueueOpResult.indexOutOfRange) ∧
    queue_move j i q = (q, QueueOpResult.indexOutOfRange) := by
  refine ⟨?_, ?_, ?_⟩
  · simp only [queue_remove, if_pos (by omega :
      i - 1 < 0 ∨ i - 1 > (q.length : Int) - 1)]
  · simp only [queue_move, if_pos (by omega :
      i - 1 < 0 ∨ i - 1 > (q.length : Int) - 1 ∨
        j - 1 < 0 ∨ j - 1 > (q.length : Int) - 1)]
  · simp only [queue_move, if_pos (by omega :
      j - 1 < 0 ∨ j - 1 > (q.length : Int) - 1 ∨
        i - 1 < 0 ∨ i - 1 > (q.length : Int) - 1)]

def trackA : Track := ⟨"idA", "A", "uriA", 1000, none, "alice"⟩

def trackB : Track := ⟨"idB", "B", "uriB", 2000, none, "bob"⟩

def trackC : Track := ⟨"idC", "C", "uriC", 3000, none, "carol"⟩

def trackD : Track := ⟨"idD", "D", "uriD", 4000, none, "dave"⟩

def trackE : Track := ⟨"idE", "E", "uriE", 5000, none, "eve"⟩

/-- Witness for C5: `removeAt(2)` on `[A, B, C]` yields `[A, C]` and
returns `B`. -/
theorem queue_remove_valid_witness :
    (1 : Int) ≤ 2 ∧
    ([trackA, trackB, trackC][((2 : Int) - 1).toNat]? = some trackB) ∧
    queue_remove 2 [trackA, trackB, trackC] =
      ([trackA, trackC], QueueOpResult.ok trackB) := by
  refine ⟨by decide, by decide, ?_⟩
  exact (queue_remove_valid [trackA, trackB, trackC] trackB 2 (by decide)
    (by decide)).trans (by decide)

/-- Witness for C3: `moveTo(3, 1)` on `[A, B, C, D, E]` yields
`[C, A, B, D, E]`. -/
theorem queue_move_valid_witness :
    (1 : Int) ≤ 3 ∧
    ([trackA, trackB, trackC, trackD, trackE][((3 : Int) - 1).toNat]? =
      some trackC) ∧
    (1 : Int) ≤ 1 ∧
    (1 : Int) ≤ (([trackA, trackB, trackC, trackD, trackE] : List Track).length : Int) ∧
    queue_move 3 1 [trackA, trackB, trackC, trackD, trackE] =
      ([trackC, trackA, trackB, trackD, trackE], QueueOpResult.ok trackC) := by
  refine ⟨by decide, by decide, by decide, by decide, ?_⟩
  exact (queue_move_valid [trackA, trackB, trackC, trackD, trackE] trackC 3 1
    (by decide) (by decide) (by decide) (by decide)).trans (by decide)

/-- Witness for C4: index 5 on the single-element queue `[A]` makes
`queue_remove` and `queue_move` fail and leave the queue unchanged. -/
theorem queue_index_out_of_range_witness :
    ((5 : Int) < 1 ∨ ((([trackA] : List Track).length : Nat) : Int) < 5) ∧
    (queue_remove 5 [trackA] = ([trackA], QueueOpResult.indexOutOfRange) ∧
     queue_move 5 1 [trackA] = ([trackA], QueueOpResult.indexOutOfRange) ∧
     queue_move 1 5 [trackA] = ([trackA], QueueOpResult.indexOutOfRange)) :=
  ⟨by decide, queue_index_out_of_range [trackA] 5 1 (by decide)⟩

/-!
The per-guild `MusicController` loop (music.py lines 22-62).  Controller
state tracks the two loop flags, the current track, the queue contents and
the finish event `self.next`; one pass of the `while True` body is
modelled as `controller_iteration`, which also records the externally
visible actions of the pass in order.
-/

structure ControllerState where
  is_single_loop : Bool
  is_queue_loop : Bool
  current_track : Option Track
  queue : List Track
  next_signal : Bool
deriving DecidableEq, Repr

inductive LoopAction where
  | clearSignal
  | dequeue (t : Track)
  | playTrack (t : Option Track)
  | sendNowPlaying (t : Option Track)
  | waitSignal
  | enqueueTail (t : Track)
deriving DecidableEq, Repr

/-- One pass of `MusicController.controller_loop` (music.py lines 48-62):
`self.next.clear()`; if single loop is off, `self.current_track = await
self.queue.get()` (returns `none` while blocked on an empty queue);
`player.play(current_track)` and the now-playing notification; `await
self.next.wait()` (the pass completes only once the finish event is set,
so `next_signal` is `true` in the post-state); finally, if queue loop is
on, `await self.queue.put(self.current_track)` appends the current track
at the tail.  The action list records the pass in program order. -/
def controller_iteration (s : ControllerState) :
    Option (List LoopAction × ControllerState) :=
  if s.is_single_loop then
    some (LoopAction.clearSignal :: LoopAction.playTrack s.current_track ::
            LoopAction.sendNowPlaying s.current_track :: LoopAction.waitSignal ::
            (if s.is_queue_loop then s.current_track.toList.map LoopAction.enqueueTail
             else []),
          { s with
              queue := if s.is_queue_loop then s.queue ++ s.current_track.toList
                       else s.queue,
              next_signal := true })
  else
    match s.queue with
    | [] => none
    | t :: rest =>
        some (LoopAction.clearSignal :: LoopAction.dequeue t ::
                LoopAction.playTrack (some t) :: LoopAction.sendNowPlaying (some t) ::
                LoopAction.waitSignal ::
                (if s.is_queue_loop then [LoopAction.enqueueTail t] else []),
              { s with
                  current_track := some t,
                  queue := if s.is_queue_loop then rest ++ [t] else rest,
                  next_signal := true })

/-- C1: in every completed pass of the controller loop, the finish signal
is cleared first; with single loop off the head of the queue is dequeued
and becomes the current track, with single loop on the current track is
reused unchanged; the track is played exactly once and the pass waits for
the finish signal exactly once; and upon waking, exactly when queue loop
is on, the current track is appended at the tail of the queue exactly
once, as the last step before the next pass begins. -/
theorem controller_loop_pass_spec (s : ControllerState)
    (hrun : s.is_single_loop = true ∨ s.queue ≠ []) :
    ∃ acts s', controller_iteration s = some (acts, s') ∧
      acts.head? = some LoopAction.clearSignal ∧
      (s.is_single_loop = false → s'.current_track = s.queue.head? ∧
        (∀ u, acts.count (LoopAction.dequeue u) =
          if s.queue.head? = some u then 1 else 0)) ∧
      (s.is_single_loop = true → s'.current_track = s.current_track ∧
        (∀ u, acts.count (LoopAction.dequeue u) = 0)) ∧
      acts.count (LoopAction.playTrack s'.current_track) = 1 ∧
      acts.count LoopAction.waitSignal = 1 ∧
      (s.is_queue_loop = true → ∀ u, s'.current_track = some u →
        acts.count (LoopAction.enqueueTail u) = 1 ∧
        acts.getLast? = some (LoopAction.enqueueTail u) ∧
        s'.queue = (if s.is_single_loop then s.queue else s.queue.tail) ++ [u]) ∧
      (s.is_queue_loop = false →
        s'.queue = (if s.is_single_loop then s.queue else s.queue.tail) ∧
        (∀ u, acts.count (LoopAction.enqueueTail u) = 0)) := by
  rcases s with ⟨sl, ql, cur, q, sig⟩
  cases sl with
  | true =>
    cases ql with
    | false =>
        refine ⟨_, _, rfl, rfl, ?_, ?_, ?_, ?_, ?_, ?_⟩
        · intro h; exact absurd h (by simp)
        · intro _
          exact ⟨rfl, fun u => by simp [List.count_cons]⟩
        · simp [List.count_cons]
        · simp [List.count_cons]
        · intro h; exact absurd h (by simp)
        · intro _
          exact ⟨by simp, fun u => by simp [List.count_cons]⟩
    | true =>
        refine ⟨_, _, rfl, rfl, ?_, ?_, ?_, ?_, ?_, ?_⟩
        · intro h; exact absurd h (by simp)
        · intro _
          refine ⟨rfl, fun u => ?_⟩
          cases cur <;> simp [List.count_cons]
        · cases cur <;> simp [List.count_cons]
        · cases cur <;> simp [List.count_cons]
        · intro _ u hu
          have hc : cur = some u := hu
          subst hc
          exact ⟨by simp [List.count_cons], by simp [List.getLast?], by simp⟩
        · intro h; exact absurd h (by simp)
  | false =>
    cases q with
    | nil =>
        rcases hrun with h | h
        · exact absurd h (by simp)
        · exact absurd rfl h
    | cons t rest =>
        cases ql with
        | false =>
            refine ⟨_, _, rfl, rfl, ?_, ?_, ?_, ?_, ?_, ?_⟩
            · intro _
              refine ⟨rfl, fun u => ?_⟩
              by_cases hu : t = u
              · subst hu; simp [List.count_cons]
              · simp [List.count_cons, hu, Ne.symm hu]
            · intro h; exact absurd h (by simp)
            · simp [List.count_cons]
            · simp [List.count_cons]
            · intro h; exact absurd h (by simp)
            · intro _
              exact ⟨by simp, fun u => by simp [List.count_cons]⟩
        | true =>
            refine ⟨_, _, rfl, rfl, ?_, ?_, ?_, ?_, ?_, ?_⟩
            · intro _
              refine ⟨rfl, fun u => ?_⟩
              by_cases hu : t = u
              · subst hu; simp [List.count_cons]
              · simp [List.count_cons, hu, Ne.symm hu]
            · intro h; exact absurd h (by simp)
            · simp [List.count_cons]
            · simp [List.count_cons]
            · intro _ u hu
              have hc : some t = some u := hu
              have ht : t = u := by injection hc
              subst ht
              exact ⟨by simp [List.count_cons], by simp [List.getLast?], by simp⟩
            · intro h; exact absurd h (by simp)

/-- Witness for C1: a pass over the one-element queue `[A]` with single
loop off and queue loop on. -/
theorem controller_loop_pass_spec_witness :
    ((⟨false, true, none, [trackA], false⟩ : ControllerState).is_single_loop = true ∨
      (⟨false, true, none, [trackA], false⟩ : ControllerState).queue ≠ []) ∧
    (∃ acts s',
      controller_iteration ⟨false, true, none, [trackA], false⟩ = some (acts, s') ∧
      acts.head? = some LoopAction.clearSignal ∧
      ((⟨false, true, none, [trackA], false⟩ : ControllerState).is_single_loop = false →
        s'.current_track = (⟨false, true, none, [trackA], false⟩ : ControllerState).queue.head? ∧
        (∀ u, acts.count (LoopAction.dequeue u) =
          if (⟨false, true, none, [trackA], false⟩ : ControllerState).queue.head? = some u then 1 else 0)) ∧
      ((⟨false, true, none, [trackA], false⟩ : ControllerState).is_single_loop = true →
        s'.current_track = (⟨false, true, none, [trackA], false⟩ : ControllerState).current_track ∧
        (∀ u, acts.count (LoopAction.dequeue u) = 0)) ∧
      acts.count (LoopAction.playTrack s'.current_track) = 1 ∧
      acts.count LoopAction.waitSignal = 1 ∧
      ((⟨false, true, none, [trackA], false⟩ : ControllerState).is_queue_loop = true →
        ∀ u, s'.current_track = some u →
        acts.count (LoopAction.enqueueTail u) = 1 ∧
        acts.getLast? = some (LoopAction.enqueueTail u) ∧
        s'.queue = (if (⟨false, true, none, [trackA], false⟩ : ControllerState).is_single_loop
          then (⟨false, true, none, [trackA], false⟩ : ControllerState).queue
          else (⟨false, true, none, [trackA], false⟩ : ControllerState).queue.tail) ++ [u]) ∧
      ((⟨false, true, none, [trackA], false⟩ : ControllerState).is_queue_loop = false →
        s'.queue = (if (⟨false, true, none, [trackA], false⟩ : ControllerState).is_single_loop
          then (⟨false, true, none, [trackA], false⟩ : ControllerState).queue
          else (⟨false, true, none, [trackA], false⟩ : ControllerState).queue.tail) ∧
        (∀ u, acts.count (LoopAction.enqueueTail u) = 0))) :=
  ⟨Or.inr (by simp),
    controller_loop_pass_spec ⟨false, true, none, [trackA], false⟩ (Or.inr (by simp))⟩

/-!
The wavelink node hook (music.py lines 211-215): only `TrackEnd` and
`TrackException` events set the controller's finish event.
-/

inductive WavelinkEvent where
  | trackEnd
  | trackException
  | trackStuck
  | websocketClosed
deriving DecidableEq, Repr

/-- `Music.on_event_hook` (music.py lines 211-215): on `TrackEnd` or
`TrackException` the hook sets `controller.next`; every other event is
ignored. -/
def on_event_hook (e : WavelinkEvent) (s : ControllerState) : ControllerState :=
  if e = WavelinkEvent.trackEnd ∨ e = WavelinkEvent.trackException then
    { s with next_signal := true }
  else
    s

/-- C6: a track-error signal is handled identically to a track-finish
signal: both set the controller's finish signal, and the loop pass that
follows is the same in both cases, so a playback error never ends the
controller loop differently from a normal finish. -/
theorem track_error_handled_as_finish (s : ControllerState) :
    on_event_hook WavelinkEvent.trackException s =
      on_event_hook WavelinkEvent.trackEnd s ∧
    (on_event_hook WavelinkEvent.trackException s).next_signal = true ∧
    controller_iteration (on_event_hook WavelinkEvent.trackException s) =
      controller_iteration (on_event_hook WavelinkEvent.trackEnd s) := by
  refine ⟨rfl, rfl, rfl⟩

/-!
The two loop-mode toggles (music.py lines 477-504 and 611-639) acting on
the pair of flags.  `playerExists` models the truthiness of
`controller.player` tested by `repeat`.
-/

structure LoopFlags where
  is_single_loop : Bool
  is_queue_loop : Bool
deriving DecidableEq, Repr

/-- `Music.repeat` (music.py lines 477-504): toggles `is_single_loop`;
if the toggle enabled it while `controller.player` is falsy the command
reports "There's nothing to loop." and resets the flag to `False`.
`is_queue_loop` is never touched. -/
def repeatToggle (playerExists : Bool) (s : LoopFlags) : LoopFlags :=
  let s1 : LoopFlags := { s with is_single_loop := !s.is_single_loop }
  if s1.is_single_loop && !playerExists then
    { s1 with is_single_loop := false }
  else
    s1

/-- `Music.queue_loop` (music.py lines 611-639): toggles `is_queue_loop`;
if it is now enabled while `is_single_loop` is set, the command invokes
`repeat` (via `ctx.invoke`), which toggles single loop off. -/
def queueLoopToggle (playerExists : Bool) (s : LoopFlags) : LoopFlags :=
  let s1 : LoopFlags := { s with is_queue_loop := !s.is_queue_loop }
  if s1.is_queue_loop && s1.is_single_loop then
    repeatToggle playerExists s1
  else
    s1

/-- Flag states reachable from the freshly constructed controller
(`is_single_loop = is_queue_loop = False`, music.py lines 33-34) through
the two toggle commands. -/
inductive ReachableFlags : LoopFlags → Prop where
  | init : ReachableFlags ⟨false, false⟩
  | rep (playerExists : Bool) {s : LoopFlags} :
      ReachableFlags s → ReachableFlags (repeatToggle playerExists s)
  | qloop (playerExists : Bool) {s : LoopFlags} :
      ReachableFlags s → ReachableFlags (queueLoopToggle playerExists s)

/-- Counterexample to C2: toggling queue loop first and single loop
second reaches a state with both flags true, so the toggle operations do
not maintain mutual exclusion of the two flags. -/
theorem both_loops_reachable :
    ∃ s : LoopFlags, ReachableFlags s ∧
      s.is_single_loop = true ∧ s.is_queue_loop = true := by
  refine ⟨⟨true, true⟩, ?_, rfl, rfl⟩
  have h1 : ReachableFlags (queueLoopToggle true ⟨false, false⟩) :=
    ReachableFlags.qloop true ReachableFlags.init
  have h2 : ReachableFlags (repeatToggle true (queueLoopToggle true ⟨false, false⟩)) :=
    ReachableFlags.rep true h1
  have he : repeatToggle true (queueLoopToggle true ⟨false, false⟩) =
      (⟨true, true⟩ : LoopFlags) := by decide
  exact he ▸ h2

/-- C2 amended: enabling queue loop while single loop is active disables
single loop, and after any queue-loop toggle the two flags are never both
true; but the single-loop toggle does not touch the queue-loop flag, so a
state with both flags true is reachable through it. -/
theorem queue_loop_toggle_exclusive (playerExists : Bool) (s : LoopFlags)
    (h1 : s.is_single_loop = true) (h2 : s.is_queue_loop = false) :
    queueLoopToggle playerExists s = ⟨false, true⟩ ∧
    (∀ (p : Bool) (u : LoopFlags),
      ¬((queueLoopToggle p u).is_single_loop = true ∧
        (queueLoopToggle p u).is_queue_loop = true)) ∧
    (∀ (p : Bool) (u : LoopFlags),
      (repeatToggle p u).is_queue_loop = u.is_queue_loop) := by
  refine ⟨?_, ?_, ?_⟩
  · rcases s with ⟨sl, ql⟩
    have h1' : sl = true := h1
    have h2' : ql = false := h2
    subst h1'
    subst h2'
    cases playerExists <;> decide
  · intro p u
    rcases u with ⟨sl, ql⟩
    cases sl <;> cases ql <;> cases p <;> decide
  · intro p u
    rcases u with ⟨sl, ql⟩
    cases sl <;> cases ql <;> cases p <;> decide

/-- Witness for the amended C2, starting from single loop on and queue
loop off. -/
theorem queue_loop_toggle_exclusive_witness :
    ((⟨true, false⟩ : LoopFlags).is_single_loop = true ∧
      (⟨true, false⟩ : LoopFlags).is_queue_loop = false) ∧
    (queueLoopToggle true ⟨true, false⟩ = ⟨false, true⟩ ∧
    (∀ (p : Bool) (u : LoopFlags),
      ¬((queueLoopToggle p u).is_single_loop = true ∧
        (queueLoopToggle p u).is_queue_loop = true)) ∧
    (∀ (p : Bool) (u : LoopFlags),
      (repeatToggle p u).is_queue_loop = u.is_queue_loop)) :=
  ⟨⟨rfl, rfl⟩, queue_loop_toggle_exclusive true ⟨true, false⟩ rfl rfl⟩

/-!
The `InteractiveMenu` control surface (music.py lines 64-172).  The
invocation context carries the actor identity and guild/channel scope;
a button handler substitutes the triggering member for the author,
resolves the text command of the same name, invokes it, and resets its
cooldown with the substituted context.  The surface state carries the
reference to the rendered status message and the menus event-listening
lifecycle flag (`self.stop()` ends it, after which the reaction loop
dispatches no further button presses).
-/

structure MenuCtx where
  author : Nat
  guild : Nat
  channel : Nat
deriving DecidableEq, Repr

/-- `InteractiveMenu.update_context` (music.py lines 72-76): shallow-copy
the stored context and replace its author with the member who pressed the
button. -/
def update_context (c : MenuCtx) (member : Nat) : MenuCtx :=
  { c with author := member }

/-- Side effects a button handler requests from the bot: invoking a named
text command as a given author, and resetting that command's cooldown for
a given context author. -/
inductive BotOp where
  | invoke (command : String) (author : Nat)
  | resetCooldown (command : String) (author : Nat)
deriving DecidableEq, Repr

structure SurfaceState where
  ctx : MenuCtx
  message : Option Nat
  running : Bool
deriving DecidableEq, Repr

/-- `InteractiveMenu.on_pause_button` (music.py lines 125-130).  The
`running` guard models the `menus.Menu` reaction loop: a stopped menu
dispatches no handler. -/
def on_pause_button (m : SurfaceState) (member : Nat) :
    SurfaceState × List BotOp :=
  if m.running = false then (m, [])
  else
    let c := update_context m.ctx member
    (m, [BotOp.invoke "pause" c.author, BotOp.resetCooldown "pause" c.author])

/-- `InteractiveMenu.on_skip_button` (music.py lines 131-136). -/
def on_skip_button (m : SurfaceState) (member : Nat) :
    SurfaceState × List BotOp :=
  if m.running = false then (m, [])
  else
    let c := update_context m.ctx member
    (m, [BotOp.invoke "skip" c.author, BotOp.resetCooldown "skip" c.author])

/-- `InteractiveMenu.on_shuffle_button` (music.py lines 137-142). -/
def on_shuffle_button (m : SurfaceState) (member : Nat) :
    SurfaceState × List BotOp :=
  if m.running = false then (m, [])
  else
    let c := update_context m.ctx member
    (m, [BotOp.invoke "queue shuffle" c.author,
         BotOp.resetCooldown "queue shuffle" c.author])

/-- `InteractiveMenu.on_qloop_button` (music.py lines 143-148). -/
def on_qloop_button (m : SurfaceState) (member : Nat) :
    SurfaceState × List BotOp :=
  if m.running = false then (m, [])
  else
    let c := update_context m.ctx member
    (m, [BotOp.invoke "queue loop" c.author,
         BotOp.resetCooldown "queue loop" c.author])

/-- `InteractiveMenu.on_loop_button` (music.py lines 149-154). -/
def on_loop_button (m : SurfaceState) (member : Nat) :
    SurfaceState × List BotOp :=
  if m.running = false then (m, [])
  else
    let c := update_context m.ctx member
    (m, [BotOp.invoke "repeat" c.author, BotOp.resetCooldown "repeat" c.author])

/-- `InteractiveMenu.on_stop_button` (music.py lines 155-163): invoke the
`stop` command with the substituted context, reset its cooldown, delete
the rendered message, clear the message reference, and stop the menu. -/
def on_stop_button (m : SurfaceState) (member : Nat) :
    SurfaceState × List BotOp :=
  if m.running = false then (m, [])
  else
    let c := update_context m.ctx member
    ({ m with message := none, running := false },
     [BotOp.invoke "stop" c.author, BotOp.resetCooldown "stop" c.author])

/-- `InteractiveMenu.on_disconnect_button` (music.py lines 164-172). -/
def on_disconnect_button (m : SurfaceState) (member : Nat) :
    SurfaceState × List BotOp :=
  if m.running = false then (m, [])
  else
    let c := update_context m.ctx member
    ({ m with message := none, running := false },
     [BotOp.invoke "disconnect" c.author, BotOp.resetCooldown "disconnect" c.author])

/-- C8: every button trigger on a running surface substitutes the
triggering member for the author (keeping the rest of the context),
invokes the text command of the same name with that identity, and then
resets that command's cooldown for the same substituted identity. -/
theorem button_identity_substitution (m : SurfaceState) (member : Nat)
    (hrun : m.running = true) :
    (update_context m.ctx member).author = member ∧
    (update_context m.ctx member).guild = m.ctx.guild ∧
    (update_context m.ctx member).channel = m.ctx.channel ∧
    (on_pause_button m member).2 =
      [BotOp.invoke "pause" member, BotOp.resetCooldown "pause" member] ∧
    (on_skip_button m member).2 =
      [BotOp.invoke "skip" member, BotOp.resetCooldown "skip" member] ∧
    (on_shuffle_button m member).2 =
      [BotOp.invoke "queue shuffle" member,
       BotOp.resetCooldown "queue shuffle" member] ∧
    (on_qloop_button m member).2 =
      [BotOp.invoke "queue loop" member,
       BotOp.resetCooldown "queue loop" member] ∧
    (on_loop_button m member).2 =
      [BotOp.invoke "repeat" member, BotOp.resetCooldown "repeat" member] ∧
    (on_stop_button m member).2 =
      [BotOp.invoke "stop" member, BotOp.resetCooldown "stop" member] ∧
    (on_disconnect_button m member).2 =
      [BotOp.invoke "disconnect" member,
       BotOp.resetCooldown "disconnect" member] := by
  refine ⟨rfl, rfl, rfl, ?_, ?_, ?_, ?_, ?_, ?_, ?_⟩ <;>
    simp [on_pause_button, on_skip_button, on_shuffle_button, on_qloop_button,
      on_loop_button, on_stop_button, on_disconnect_button, update_context, hrun]

/-- Witness for C8 on a concrete surface and member. -/
theorem button_identity_substitution_witness :
    ((⟨⟨7, 1, 2⟩, some 5, true⟩ : SurfaceState).running = true) ∧
    ((update_context (⟨7, 1, 2⟩ : MenuCtx) 9).author = 9 ∧
     (update_context (⟨7, 1, 2⟩ : MenuCtx) 9).guild = (⟨7, 1, 2⟩ : MenuCtx).guild ∧
     (update_context (⟨7, 1, 2⟩ : MenuCtx) 9).channel = (⟨7, 1, 2⟩ : MenuCtx).channel ∧
     (on_pause_button ⟨⟨7, 1, 2⟩, some 5, true⟩ 9).2 =
       [BotOp.invoke "pause" 9, BotOp.resetCooldown "pause" 9] ∧
     (on_skip_button ⟨⟨7, 1, 2⟩, some 5, true⟩ 9).2 =
       [BotOp.invoke "skip" 9, BotOp.resetCooldown "skip" 9] ∧
     (on_shuffle_button ⟨⟨7, 1, 2⟩, some 5, true⟩ 9).2 =
       [BotOp.invoke "queue shuffle" 9, BotOp.resetCooldown "queue shuffle" 9] ∧
     (on_qloop_button ⟨⟨7, 1, 2⟩, some 5, true⟩ 9).2 =
       [BotOp.invoke "queue loop" 9, BotOp.resetCooldown "queue loop" 9] ∧
     (on_loop_button ⟨⟨7, 1, 2⟩, some 5, true⟩ 9).2 =
       [BotOp.invoke "repeat" 9, BotOp.resetCooldown "repeat" 9] ∧
     (on_stop_button ⟨⟨7, 1, 2⟩, some 5, true⟩ 9).2 =
       [BotOp.invoke "stop" 9, BotOp.resetCooldown "stop" 9] ∧
     (on_disconnect_button ⟨⟨7, 1, 2⟩, some 5, true⟩ 9).2 =
       [BotOp.invoke "disconnect" 9, BotOp.resetCooldown "disconnect" 9]) :=
  ⟨rfl, button_identity_substitution ⟨⟨7, 1, 2⟩, some 5, true⟩ 9 rfl⟩

/-!
The `stop` command (music.py lines 827-855) next to the surface teardown
performed by the stop/disconnect buttons.  `StopView` collects the
controller state the command touches together with its menu's message
reference and event-listening flag.
-/

structure StopView where
  player_playing : Bool
  is_single_loop : Bool
  is_queue_loop : Bool
  queue : List Track
  menu_message : Option Nat
  menu_running : Bool
deriving DecidableEq, Repr

/-- `Music.stop` (music.py lines 830-855): if nothing is playing, reply
and return; otherwise stop the player, disable both loops and drain the
queue.  The command never touches `controller.menu`. -/
def stop_command (s : StopView) : StopView :=
  if s.player_playing = false then s
  else
    { s with
        player_playing := false,
        is_queue_loop := false,
        is_single_loop := false,
        queue := [] }

/-- The controller-local effect of `Music.disconnect` (music.py lines
261-282): stop the player und drain the queue.  (The registry eviction is
modelled separately on `MusicCog`.)  The command never touches
`controller.menu`. -/
def disconnect_command_local (s : StopView) : StopView :=
  { s with player_playing := false, queue := [] }

/-- The stop button teardown (music.py lines 155-163) on `StopView`:
invoke `stop`, then delete the rendered message, clear the reference and
stop the menu.  A stopped menu dispatches no handler. -/
def stop_button_teardown (s : StopView) : StopView :=
  if s.menu_running = false then s
  else
    let s1 := stop_command s
    { s1 with menu_message := none, menu_running := false }

/-- The disconnect button teardown (music.py lines 164-172) on
`StopView`. -/
def disconnect_button_teardown (s : StopView) : StopView :=
  if s.menu_running = false then s
  else
    let s1 := disconnect_command_local s
    { s1 with menu_message := none, menu_running := false }

/-- Counterexample to C7: the explicit `stop` command, run while a status
message is rendered, leaves the surface's message reference intact and
the surface live — it does not tear down the control surface. -/
theorem stop_command_keeps_surface :
    (stop_command ⟨true, false, false, [], some 1, true⟩).menu_message = some 1 ∧
    (stop_command ⟨true, false, false, [], some 1, true⟩).menu_running = true := by
  exact ⟨rfl, rfl⟩

/-- C7 amended: the stop button and the disconnect button each tear down
the control surface — the rendered status message is removed, the message
reference is cleared and the menu stops listening, after which no further
button press is processed (every handler is a no-op on a stopped
surface); the explicit `stop` command stops playback, disables both loops
and drains the queue but leaves the surface's message reference and
listening state unchanged. -/
theorem surface_teardown_spec (s : StopView) (hrun : s.menu_running = true) :
    ((stop_button_teardown s).menu_message = none ∧
     (stop_button_teardown s).menu_running = false ∧
     (disconnect_button_teardown s).menu_message = none ∧
     (disconnect_button_teardown s).menu_running = false) ∧
    (∀ u : StopView, u.menu_running = false →
      stop_button_teardown u = u ∧ disconnect_button_teardown u = u) ∧
    (∀ (m : SurfaceState) (member : Nat), m.running = false →
      on_pause_button m member = (m, []) ∧
      on_skip_button m member = (m, []) ∧
      on_shuffle_button m member = (m, []) ∧
      on_qloop_button m member = (m, []) ∧
      on_loop_button m member = (m, []) ∧
      on_stop_button m member = (m, []) ∧
      on_disconnect_button m member = (m, [])) ∧
    (∀ u : StopView,
      (stop_command u).menu_message = u.menu_message ∧
      (stop_command u).menu_running = u.menu_running ∧
      (stop_command u).player_playing = false ∧
      (stop_command u).is_single_loop = (!u.player_playing && u.is_single_loop) ∧
      (stop_command u).is_queue_loop = (!u.player_playing && u.is_queue_loop) ∧
      (stop_command u).queue = if u.player_playing then [] else u.queue) := by
  refine ⟨?_, ?_, ?_, ?_⟩
  · simp [stop_button_teardown, disconnect_button_teardown, stop_command,
      disconnect_command_local, hrun]
  · intro u hu
    simp [stop_button_teardown, disconnect_button_teardown, hu]
  · intro m member hm
    simp [on_pause_button, on_skip_button, on_shuffle_button, on_qloop_button,
      on_loop_button, on_stop_button, on_disconnect_button, hm]
  · intro u
    rcases u with ⟨pl, sl, ql, q, msg, run⟩
    cases pl <;> simp [stop_command]

/-- Witness for the amended C7 on a live surface with a rendered
message. -/
theorem surface_teardown_spec_witness :
    ((⟨true, true, false, [trackA], some 3, true⟩ : StopView).menu_running = true) ∧
    (((stop_button_teardown ⟨true, true, false, [trackA], some 3, true⟩).menu_message = none ∧
      (stop_button_teardown ⟨true, true, false, [trackA], some 3, true⟩).menu_running = false ∧
      (disconnect_button_teardown ⟨true, true, false, [trackA], some 3, true⟩).menu_message = none ∧
      (disconnect_button_teardown ⟨true, true, false, [trackA], some 3, true⟩).menu_running = false) ∧
     (∀ u : StopView, u.menu_running = false →
       stop_button_teardown u = u ∧ disconnect_button_teardown u = u) ∧
     (∀ (m : SurfaceState) (member : Nat), m.running = false →
       on_pause_button m member = (m, []) ∧
       on_skip_button m member = (m, []) ∧
       on_shuffle_button m member = (m, []) ∧
       on_qloop_button m member = (m, []) ∧
       on_loop_button m member = (m, []) ∧
       on_stop_button m member = (m, []) ∧
       on_disconnect_button m member = (m, [])) ∧
     (∀ u : StopView,
       (stop_command u).menu_message = u.menu_message ∧
       (stop_command u).menu_running = u.menu_running ∧
       (stop_command u).player_playing = false ∧
       (stop_command u).is_single_loop = (!u.player_playing && u.is_single_loop) ∧
       (stop_command u).is_queue_loop = (!u.player_playing && u.is_queue_loop) ∧
       (stop_command u).queue = if u.player_playing then [] else u.queue)) :=
  ⟨rfl, surface_teardown_spec ⟨true, true, false, [trackA], some 3, true⟩ rfl⟩

/-!
The session registry (music.py lines 174-226 and 261-282): the `Music`
cog's `controllers` dictionary maps guild ids to controllers, created
lazily by `get_controller`; each construction of a `MusicController`
starts one perpetual `controller_loop` task (music.py line 40).
-/

structure ControllerData where
  volume : Int
  is_single_loop : Bool
  is_queue_loop : Bool
  current_track : Option Track
  queue : List Track
deriving DecidableEq, Repr

/-- `MusicController.__init__` (music.py lines 23-40): volume 50, both
loops off, no current track, empty queue. -/
def new_controller : ControllerData :=
  { volume := 50
    is_single_loop := false
    is_queue_loop := false
    current_track := none
    queue := [] }

structure MusicCog where
  controllers : List (Nat × ControllerData)
  loop_tasks : Nat
deriving DecidableEq, Repr

/-- `Music.get_controller` (music.py lines 217-226): if
`controllers.get(gid)` is `None`, store `MusicController(bot, gid)` —
whose constructor starts a new controller loop task — and return the
stored entry; otherwise return the existing entry unchanged. -/
def get_controller (cog : MusicCog) (gid : Nat) : ControllerData × MusicCog :=
  match cog.controllers.find? (fun p => p.1 == gid) with
  | some p => (p.2, cog)
  | none =>
      (new_controller,
       { controllers := cog.controllers ++ [(gid, new_controller)],
         loop_tasks := cog.loop_tasks + 1 })

/-- `Music.disconnect` (music.py lines 261-282): fetch (or create) the
controller, stop the player, drain its queue, disconnect, and
`controllers.pop(gid)`. -/
def disconnect_command (cog : MusicCog) (gid : Nat) : MusicCog :=
  let r := get_controller cog gid
  { r.2 with controllers := r.2.controllers.filter (fun p => !(p.1 == gid)) }

/-- C9: after disconnecting a guild its registry entry is gone, and a
subsequent `get_controller` for the same guild constructs a brand-new
controller — default volume 50, empty queue, both loops off, no current
track — and starts one new loop task. -/
theorem disconnect_then_fresh_controller (cog : MusicCog) (gid : Nat) :
    (disconnect_command cog gid).controllers.find? (fun p => p.1 == gid) = none ∧
    (get_controller (disconnect_command cog gid) gid).1 = new_controller ∧
    new_controller.volume = 50 ∧
    new_controller.queue = [] ∧
    new_controller.is_single_loop = false ∧
    new_controller.is_queue_loop = false ∧
    new_controller.current_track = none ∧
    (get_controller (disconnect_command cog gid) gid).2.loop_tasks =
      (disconnect_command cog gid).loop_tasks + 1 := by
  have hnone : (disconnect_command cog gid).controllers.find?
      (fun p => p.1 == gid) = none := by
    apply List.find?_eq_none.mpr
    intro x hx
    simp only [disconnect_command, List.mem_filter] at hx
    simpa using hx.2
  refine ⟨hnone, ?_, rfl, rfl, rfl, rfl, rfl, ?_⟩
  · simp [get_controller, hnone]
  · simp [get_controller, hnone]

/-- C10: `get_controller` is idempotent — when an entry already exists
for the guild it is returned as-is, the registry is unchanged and no new
loop task is started; and a repeated call right after any first call
returns the same controller and changes nothing further. -/
theorem get_controller_idempotent (cog : MusicCog) (gid : Nat) :
    (∀ p, cog.controllers.find? (fun q => q.1 == gid) = some p →
      get_controller cog gid = (p.2, cog)) ∧
    (∀ c cog1, get_controller cog gid = (c, cog1) →
      get_controller cog1 gid = (c, cog1)) := by
  constructor
  · intro p hp
    simp [get_controller, hp]
  · intro c cog1 hc
    rcases hfind : cog.controllers.find? (fun q => q.1 == gid) with _ | p
    · have hc' : get_controller cog gid =
          (new_controller,
           { controllers := cog.controllers ++ [(gid, new_controller)],
             loop_tasks := cog.loop_tasks + 1 }) := by
        simp [get_controller, hfind]
      rw [hc'] at hc
      injection hc with h1 h2
      subst h1
      subst h2
      have hfind2 : (cog.controllers ++ [(gid, new_controller)]).find?
          (fun q => q.1 == gid) = some (gid, new_controller) := by
        rw [List.find?_append, hfind]
        simp
      simp [get_controller, hfind2]
    · have hc' : get_controller cog gid = (p.2, cog) := by
        simp [get_controller, hfind]
      rw [hc'] at hc
      injection hc with h1 h2
      subst h1
      subst h2
      simp [get_controller, hfind]

/-- Witness for C10 on a registry that already holds a controller for
guild 1. -/
theorem get_controller_idempotent_witness :
    ((⟨[(1, new_controller)], 1⟩ : MusicCog).controllers.find?
      (fun q => q.1 == 1) = some (1, new_controller)) ∧
    get_controller ⟨[(1, new_controller)], 1⟩ 1 =
      (new_controller, ⟨[(1, new_controller)], 1⟩) :=
  ⟨by decide,
   (get_controller_idempotent ⟨[(1, new_controller)], 1⟩ 1).1
     (1, new_controller) (by decide)⟩
